import Mathlib

/-!
Verification of the OpenGL shader-preview host (`src/main.c`) against its
specification. The C program is shallowly embedded: C floats/doubles are
modelled as rationals (the relevant code only copies, adds and subtracts
scalar values, so exactness of the scalar type is immaterial to the
properties proved), GPU handles as naturals, and every external effect
(file reads, GL compile/link status, image decoding) is an explicit
environment argument. Fallible C code (early `return`, `exit`, failed
`assert`) is modelled with `Option`.
-/

namespace GLTemplate

/-- 2-component float vector, from `la.h` (`V2f`). -/
structure V2f where
  x : ℚ
  y : ℚ
deriving DecidableEq

/-- 4-component float vector, from `la.h` (`V4f`). -/
structure V4f where
  x : ℚ
  y : ℚ
  z : ℚ
  w : ℚ
deriving DecidableEq

/-- `Vertex` struct from `src/main.c:164`: position, UV, RGBA color. -/
structure Vertex where
  pos : V2f
  uv : V2f
  color : V4f
deriving DecidableEq

/-- `VERTEX_BUF_CAP` from `src/main.c:170` (`8 * 1024`). -/
def VERTEX_BUF_CAP : ℕ := 8 * 1024

/-- The three uniforms, `Uniform` enum from `src/main.c:143`. -/
inductive Uniform where
  | RESOLUTION_UNIFORM
  | TIME_UNIFORM
  | MOUSE_UNIFORM
deriving DecidableEq

/-- `uniform_names` table from `src/main.c:151`. -/
def uniform_names : Uniform → String
  | .RESOLUTION_UNIFORM => "resolution"
  | .TIME_UNIFORM => "time"
  | .MOUSE_UNIFORM => "mouse"

/-- The `Renderer` struct from `src/main.c:171`.  The fixed-size C array
`vertex_buf[VERTEX_BUF_CAP]` is modelled as a total function from index to
cell contents together with the fill count `vertex_buf_sz`; cells at or
beyond `vertex_buf_sz` hold junk, exactly as in C. -/
structure Renderer where
  vao : ℕ
  vbo : ℕ
  program_failed : Bool
  program : ℕ
  uniforms : Uniform → ℤ
  vertex_buf : ℕ → Vertex
  vertex_buf_sz : ℕ
  texture : ℕ

/-- `renderer_push_vertex` from `src/main.c:187`.  The C function starts
with `assert(r->vertex_buf_sz < VERTEX_BUF_CAP)`; an assertion failure
aborts the process, modelled as `none`. -/
def renderer_push_vertex (r : Renderer) (pos uv : V2f) (color : V4f) :
    Option Renderer :=
  if r.vertex_buf_sz < VERTEX_BUF_CAP then
    some { r with
      vertex_buf := fun i =>
        if i = r.vertex_buf_sz then ⟨pos, uv, color⟩ else r.vertex_buf i,
      vertex_buf_sz := r.vertex_buf_sz + 1 }
  else
    none

/-- `renderer_push_quad` from `src/main.c:196`: six `renderer_push_vertex`
calls building the two triangles `(a,b,c)` and `(b,c,d)`. -/
def renderer_push_quad (r : Renderer) (p1 p2 : V2f) (color : V4f) :
    Option Renderer :=
  let a := p1
  let b : V2f := ⟨p2.x, p1.y⟩
  let c : V2f := ⟨p1.x, p2.y⟩
  let d := p2
  (renderer_push_vertex r a ⟨0, 0⟩ color).bind fun r =>
  (renderer_push_vertex r b ⟨1, 0⟩ color).bind fun r =>
  (renderer_push_vertex r c ⟨0, 1⟩ color).bind fun r =>
  (renderer_push_vertex r b ⟨1, 0⟩ color).bind fun r =>
  (renderer_push_vertex r c ⟨0, 1⟩ color).bind fun r =>
  renderer_push_vertex r d ⟨1, 1⟩ color

/-- The meaningful contents of the vertex buffer: the `vertex_buf_sz`-sized
initial segment of the array. -/
def bufList (r : Renderer) : List Vertex :=
  (List.range r.vertex_buf_sz).map r.vertex_buf

/-- A whole sequence of `renderer_push_vertex` calls, in order. -/
def push_list (r : Renderer) : List (V2f × V2f × V4f) → Option Renderer
  | [] => some r
  | v :: vs => (renderer_push_vertex r v.1 v.2.1 v.2.2).bind fun r' =>
      push_list r' vs

/-- GL context state touched by the renderer: clear color, the data last
uploaded into the bound vertex buffer, destroyed handles, bindings. -/
structure GLState where
  clear_color : V4f
  buffer_data : List Vertex
  deleted_programs : List ℕ
  used_program : Option ℕ
  deleted_textures : List ℕ
  bound_texture : Option ℕ
  uploaded_image : Option (ℤ × ℤ × List ℕ)

/-- `renderer_sync` from `src/main.c:227`: `glBufferSubData` uploads
`sizeof(Vertex) * r->vertex_buf_sz` bytes starting at offset 0, i.e. the
`vertex_buf_sz`-sized initial segment of the vertex array, not the full
capacity. -/
def renderer_sync (r : Renderer) (gl : GLState) : GLState :=
  { gl with buffer_data := bufList r }

theorem push_vertex_sz {r r' : Renderer} {pos uv : V2f} {color : V4f}
    (h : renderer_push_vertex r pos uv color = some r') :
    r'.vertex_buf_sz = r.vertex_buf_sz + 1 := by
  unfold renderer_push_vertex at h
  split at h
  · cases h; rfl
  · cases h

theorem push_vertex_bufList {r r' : Renderer} {pos uv : V2f} {color : V4f}
    (h : renderer_push_vertex r pos uv color = some r') :
    bufList r' = bufList r ++ [⟨pos, uv, color⟩] := by
  unfold renderer_push_vertex at h
  split at h
  · cases h
    unfold bufList
    simp [List.range_succ]
    exact fun i hi h => absurd h (Nat.ne_of_lt hi)
  · cases h

theorem push_vertex_some {r : Renderer} {pos uv : V2f} {color : V4f}
    (h : r.vertex_buf_sz < VERTEX_BUF_CAP) :
    renderer_push_vertex r pos uv color =
      some { r with
        vertex_buf := fun i =>
          if i = r.vertex_buf_sz then ⟨pos, uv, color⟩ else r.vertex_buf i,
        vertex_buf_sz := r.vertex_buf_sz + 1 } := by
  unfold renderer_push_vertex
  exact if_pos h

theorem push_vertex_none {r : Renderer} {pos uv : V2f} {color : V4f}
    (h : ¬ r.vertex_buf_sz < VERTEX_BUF_CAP) :
    renderer_push_vertex r pos uv color = none := by
  unfold renderer_push_vertex
  exact if_neg h

/-- Auxiliary: a successful run of `push_list` appends exactly the pushed
vertices, in order. -/
theorem push_list_ok (vs : List (V2f × V2f × V4f)) :
    ∀ r : Renderer, r.vertex_buf_sz + vs.length ≤ VERTEX_BUF_CAP →
    ∃ r', push_list r vs = some r' ∧
      r'.vertex_buf_sz = r.vertex_buf_sz + vs.length ∧
      bufList r' = bufList r ++ vs.map (fun v => ⟨v.1, v.2.1, v.2.2⟩) := by
  induction vs with
  | nil =>
      intro r _
      exact ⟨r, rfl, by simp, by simp⟩
  | cons v vs ih =>
      intro r hcap
      have hlt : r.vertex_buf_sz < VERTEX_BUF_CAP := by
        have := hcap
        simp [List.length_cons] at this
        omega
      have hsome := @push_vertex_some r v.1 v.2.1 v.2.2 hlt
      set r1 : Renderer := { r with
        vertex_buf := fun i =>
          if i = r.vertex_buf_sz then ⟨v.1, v.2.1, v.2.2⟩ else r.vertex_buf i,
        vertex_buf_sz := r.vertex_buf_sz + 1 } with hr1
      have hsz1 : r1.vertex_buf_sz = r.vertex_buf_sz + 1 :=
        push_vertex_sz hsome
      have hbuf1 : bufList r1 = bufList r ++ [⟨v.1, v.2.1, v.2.2⟩] :=
        push_vertex_bufList hsome
      have hcap1 : r1.vertex_buf_sz + vs.length ≤ VERTEX_BUF_CAP := by
        rw [hsz1]
        simp [List.length_cons] at hcap
        omega
      obtain ⟨r', hrun, hsz, hbuf⟩ := ih r1 hcap1
      refine ⟨r', ?_, ?_, ?_⟩
      · unfold push_list
        rw [hsome]
        exact hrun
      · rw [hsz, hsz1, List.length_cons]
        omega
      · rw [hbuf, hbuf1]
        simp

/-- Auxiliary: any successful `push_list` run starting within capacity ends
within capacity. -/
theorem push_list_cap (vs : List (V2f × V2f × V4f)) :
    ∀ r r' : Renderer, push_list r vs = some r' →
    r.vertex_buf_sz ≤ VERTEX_BUF_CAP → r'.vertex_buf_sz ≤ VERTEX_BUF_CAP := by
  induction vs with
  | nil =>
      intro r r' h hle
      cases h
      exact hle
  | cons v vs ih =>
      intro r r' h _
      unfold push_list at h
      cases hp : renderer_push_vertex r v.1 v.2.1 v.2.2 with
      | none => rw [hp] at h; cases h
      | some r1 =>
          rw [hp] at h
          have hlt : r.vertex_buf_sz < VERTEX_BUF_CAP := by
            by_contra hge
            rw [push_vertex_none hge] at hp
            cases hp
          have hsz1 := push_vertex_sz hp
          exact ih r1 r' h (by omega)

/-- Twice the signed area of the triangle `(a, b, c)`: positive for
counter-clockwise winding, negative for clockwise. -/
def signedArea2 (a b c : V2f) : ℚ :=
  (b.x - a.x) * (c.y - a.y) - (b.y - a.y) * (c.x - a.x)

/-- Two triangles wind consistently when their signed areas have the same
strict sign (both counter-clockwise or both clockwise). -/
def consistent_winding (t1 t2 : V2f × V2f × V2f) : Prop :=
  0 < signedArea2 t1.1 t1.2.1 t1.2.2 * signedArea2 t2.1 t2.2.1 t2.2.2

/-- A zero vertex, the content of every cell of the zero-initialized static
`global_renderer.vertex_buf` array. -/
def vertex0 : Vertex := ⟨⟨0, 0⟩, ⟨0, 0⟩, ⟨0, 0, 0, 0⟩⟩

/-- The zero-initialized `global_renderer` from `src/main.c:185`
(`static Renderer global_renderer = {0}`). -/
def renderer0 : Renderer :=
  { vao := 0, vbo := 0, program_failed := false, program := 0,
    uniforms := fun _ => 0, vertex_buf := fun _ => vertex0,
    vertex_buf_sz := 0, texture := 0 }

/-- An initial GL context state. -/
def glState0 : GLState :=
  { clear_color := ⟨0, 0, 0, 0⟩, buffer_data := [], deleted_programs := [],
    used_program := none, deleted_textures := [], bound_texture := none,
    uploaded_image := none }

/-- `renderer_push_quad` is the `push_list` run over its six
`renderer_push_vertex` calls. -/
theorem push_quad_as_list (r : Renderer) (p1 p2 : V2f) (color : V4f) :
    renderer_push_quad r p1 p2 color =
      push_list r
        [(p1, ⟨0, 0⟩, color), (⟨p2.x, p1.y⟩, ⟨1, 0⟩, color),
         (⟨p1.x, p2.y⟩, ⟨0, 1⟩, color), (⟨p2.x, p1.y⟩, ⟨1, 0⟩, color),
         (⟨p1.x, p2.y⟩, ⟨0, 1⟩, color), (p2, ⟨1, 1⟩, color)] := by
  simp only [renderer_push_quad, push_list, Option.bind_some]

/-- Helper: full description of a successful `renderer_push_quad`: the six
emitted vertices, their UVs and shared color, and the opposite winding of
the two emitted triangles. -/
theorem push_quad_spec (r : Renderer) (p1 p2 : V2f) (color : V4f)
    (h : r.vertex_buf_sz + 6 ≤ VERTEX_BUF_CAP) :
    ∃ r', renderer_push_quad r p1 p2 color = some r' ∧
      r'.vertex_buf_sz = r.vertex_buf_sz + 6 ∧
      bufList r' = bufList r ++
        [⟨p1, ⟨0, 0⟩, color⟩, ⟨⟨p2.x, p1.y⟩, ⟨1, 0⟩, color⟩,
         ⟨⟨p1.x, p2.y⟩, ⟨0, 1⟩, color⟩, ⟨⟨p2.x, p1.y⟩, ⟨1, 0⟩, color⟩,
         ⟨⟨p1.x, p2.y⟩, ⟨0, 1⟩, color⟩, ⟨p2, ⟨1, 1⟩, color⟩] ∧
      signedArea2 p1 ⟨p2.x, p1.y⟩ ⟨p1.x, p2.y⟩ =
        - signedArea2 ⟨p2.x, p1.y⟩ ⟨p1.x, p2.y⟩ p2 := by
  obtain ⟨r', hrun, hsz, hbuf⟩ := push_list_ok
    [(p1, ⟨0, 0⟩, color), (⟨p2.x, p1.y⟩, ⟨1, 0⟩, color),
     (⟨p1.x, p2.y⟩, ⟨0, 1⟩, color), (⟨p2.x, p1.y⟩, ⟨1, 0⟩, color),
     (⟨p1.x, p2.y⟩, ⟨0, 1⟩, color), (p2, ⟨1, 1⟩, color)] r (by simpa using h)
  refine ⟨r', ?_, by simpa using hsz, by simpa using hbuf, ?_⟩
  · rw [push_quad_as_list]
    exact hrun
  · unfold signedArea2
    ring

/-- C2 (amended): for every pair of corner points and color within
capacity, `renderer_push_quad` emits exactly 6 vertices forming the two
triangles `(a,b,c)` and `(b,c,d)` of the rectangle spanned by `p1` and
`p2`, all six sharing the color, with UV corners `(0,0)`, `(1,0)`,
`(0,1)`, `(1,1)` mapped consistently to `a`, `b`, `c`, `d`; the two
triangles have opposite (not consistent) winding, the shared edge `b`-`c`
being traversed in the same order by both. -/
theorem C2_push_quad_amended (r : Renderer) (p1 p2 : V2f) (color : V4f)
    (h : r.vertex_buf_sz + 6 ≤ VERTEX_BUF_CAP) :
    ∃ r', renderer_push_quad r p1 p2 color = some r' ∧
      r'.vertex_buf_sz = r.vertex_buf_sz + 6 ∧
      bufList r' = bufList r ++
        [⟨p1, ⟨0, 0⟩, color⟩, ⟨⟨p2.x, p1.y⟩, ⟨1, 0⟩, color⟩,
         ⟨⟨p1.x, p2.y⟩, ⟨0, 1⟩, color⟩, ⟨⟨p2.x, p1.y⟩, ⟨1, 0⟩, color⟩,
         ⟨⟨p1.x, p2.y⟩, ⟨0, 1⟩, color⟩, ⟨p2, ⟨1, 1⟩, color⟩] ∧
      signedArea2 p1 ⟨p2.x, p1.y⟩ ⟨p1.x, p2.y⟩ =
        - signedArea2 ⟨p2.x, p1.y⟩ ⟨p1.x, p2.y⟩ p2 :=
  push_quad_spec r p1 p2 color h

/-- C2 witness: the amended statement applied at the unit square. -/
theorem C2_push_quad_amended_witness :
    ∃ r', renderer_push_quad renderer0 ⟨0, 0⟩ ⟨1, 1⟩ ⟨1, 1, 1, 1⟩ = some r' ∧
      r'.vertex_buf_sz = renderer0.vertex_buf_sz + 6 ∧
      bufList r' = bufList renderer0 ++
        [⟨⟨0, 0⟩, ⟨0, 0⟩, ⟨1, 1, 1, 1⟩⟩, ⟨⟨1, 0⟩, ⟨1, 0⟩, ⟨1, 1, 1, 1⟩⟩,
         ⟨⟨0, 1⟩, ⟨0, 1⟩, ⟨1, 1, 1, 1⟩⟩, ⟨⟨1, 0⟩, ⟨1, 0⟩, ⟨1, 1, 1, 1⟩⟩,
         ⟨⟨0, 1⟩, ⟨0, 1⟩, ⟨1, 1, 1, 1⟩⟩, ⟨⟨1, 1⟩, ⟨1, 1⟩, ⟨1, 1, 1, 1⟩⟩] ∧
      signedArea2 ⟨0, 0⟩ ⟨1, 0⟩ ⟨0, 1⟩ = - signedArea2 ⟨1, 0⟩ ⟨0, 1⟩ ⟨1, 1⟩ :=
  C2_push_quad_amended renderer0 ⟨0, 0⟩ ⟨1, 1⟩ ⟨1, 1, 1, 1⟩ (by decide)

/-- C2 counterexample: on the unit square the first emitted triangle winds
counter-clockwise (signed area `1`) and the second clockwise (signed area
`-1`), so the claim's consistent-winding part is false. -/
theorem C2_winding_counterexample :
    ∃ r', renderer_push_quad renderer0 ⟨0, 0⟩ ⟨1, 1⟩ ⟨1, 1, 1, 1⟩ = some r' ∧
      (bufList r').map Vertex.pos =
        [⟨0, 0⟩, ⟨1, 0⟩, ⟨0, 1⟩, ⟨1, 0⟩, ⟨0, 1⟩, ⟨1, 1⟩] ∧
      signedArea2 ⟨0, 0⟩ ⟨1, 0⟩ ⟨0, 1⟩ = 1 ∧
      signedArea2 ⟨1, 0⟩ ⟨0, 1⟩ ⟨1, 1⟩ = -1 ∧
      ¬ consistent_winding (⟨0, 0⟩, ⟨1, 0⟩, ⟨0, 1⟩) (⟨1, 0⟩, ⟨0, 1⟩, ⟨1, 1⟩) := by
  obtain ⟨r', hrun, _, hbuf, _⟩ := push_quad_spec renderer0 ⟨0, 0⟩ ⟨1, 1⟩
    ⟨1, 1, 1, 1⟩ (by decide)
  refine ⟨r', hrun, ?_, by norm_num [signedArea2], by norm_num [signedArea2], ?_⟩
  · rw [hbuf]
    rfl
  · norm_num [consistent_winding, signedArea2]

/-- C4: `renderer_push_vertex` under the precondition `length < capacity`
appends exactly one vertex and preserves `length ≤ capacity`; at full
capacity it is a fatal assertion failure (`none`), and every state
reachable by successful pushes from a within-capacity state stays within
capacity. -/
theorem C4_push_vertex_safety (r : Renderer) (pos uv : V2f) (color : V4f) :
    (r.vertex_buf_sz < VERTEX_BUF_CAP →
      ∃ r', renderer_push_vertex r pos uv color = some r' ∧
        r'.vertex_buf_sz = r.vertex_buf_sz + 1 ∧
        bufList r' = bufList r ++ [⟨pos, uv, color⟩] ∧
        r'.vertex_buf_sz ≤ VERTEX_BUF_CAP)
    ∧ (VERTEX_BUF_CAP ≤ r.vertex_buf_sz →
        renderer_push_vertex r pos uv color = none)
    ∧ (∀ vs r', push_list r vs = some r' →
        r.vertex_buf_sz ≤ VERTEX_BUF_CAP →
        r'.vertex_buf_sz ≤ VERTEX_BUF_CAP) := by
  refine ⟨?_, ?_, ?_⟩
  · intro hlt
    have hsome := @push_vertex_some r pos uv color hlt
    refine ⟨_, hsome, push_vertex_sz hsome, push_vertex_bufList hsome, ?_⟩
    rw [push_vertex_sz hsome]
    omega
  · intro hge
    exact push_vertex_none (by omega)
  · intro vs r' hrun hle
    exact push_list_cap vs r r' hrun hle

/-- C4 witness: the theorem applied at the empty batch (successful append)
and at a full batch (fatal assertion). -/
theorem C4_push_vertex_safety_witness :
    (∃ r', renderer_push_vertex renderer0 ⟨0, 0⟩ ⟨0, 0⟩ ⟨1, 1, 1, 1⟩ = some r' ∧
      r'.vertex_buf_sz = renderer0.vertex_buf_sz + 1 ∧
      bufList r' = bufList renderer0 ++ [⟨⟨0, 0⟩, ⟨0, 0⟩, ⟨1, 1, 1, 1⟩⟩] ∧
      r'.vertex_buf_sz ≤ VERTEX_BUF_CAP)
    ∧ renderer_push_vertex { renderer0 with vertex_buf_sz := VERTEX_BUF_CAP }
        ⟨0, 0⟩ ⟨0, 0⟩ ⟨1, 1, 1, 1⟩ = none := by
  constructor
  · exact (C4_push_vertex_safety renderer0 ⟨0, 0⟩ ⟨0, 0⟩ ⟨1, 1, 1, 1⟩).1
      (by decide)
  · exact (C4_push_vertex_safety { renderer0 with vertex_buf_sz := VERTEX_BUF_CAP }
      ⟨0, 0⟩ ⟨0, 0⟩ ⟨1, 1, 1, 1⟩).2.1 (by decide)

/-- C5: for every sequence of pushes within capacity starting from an
empty batch, `renderer_sync` uploads exactly the current length's worth of
vertex data — the ordered uploaded sequence equals the pushed sequence. -/
theorem C5_sync_matches_pushes (vs : List (V2f × V2f × V4f)) (r : Renderer)
    (gl : GLState) (h0 : r.vertex_buf_sz = 0)
    (hcap : vs.length ≤ VERTEX_BUF_CAP) :
    ∃ r', push_list r vs = some r' ∧
      r'.vertex_buf_sz = vs.length ∧
      (renderer_sync r' gl).buffer_data =
        vs.map (fun v => ⟨v.1, v.2.1, v.2.2⟩) := by
  obtain ⟨r', hrun, hsz, hbuf⟩ := push_list_ok vs r (by omega)
  refine ⟨r', hrun, by omega, ?_⟩
  have hnil : bufList r = [] := by
    unfold bufList
    rw [h0]
    rfl
  rw [renderer_sync, hbuf, hnil]
  rfl

/-- C5 witness: two pushed vertices sync to exactly those two vertices. -/
theorem C5_sync_matches_pushes_witness :
    ∃ r', push_list renderer0
        [(⟨1, 2⟩, ⟨0, 0⟩, ⟨1, 0, 0, 1⟩), (⟨3, 4⟩, ⟨1, 1⟩, ⟨0, 1, 0, 1⟩)] = some r' ∧
      r'.vertex_buf_sz = 2 ∧
      (renderer_sync r' glState0).buffer_data =
        [⟨⟨1, 2⟩, ⟨0, 0⟩, ⟨1, 0, 0, 1⟩⟩, ⟨⟨3, 4⟩, ⟨1, 1⟩, ⟨0, 1, 0, 1⟩⟩] := by
  have h := C5_sync_matches_pushes
    [(⟨1, 2⟩, ⟨0, 0⟩, ⟨1, 0, 0, 1⟩), (⟨3, 4⟩, ⟨1, 1⟩, ⟨0, 1, 0, 1⟩)]
    renderer0 glState0 rfl (by decide)
  simpa using h

/-- `GL_VERTEX_SHADER`. -/
def GL_VERTEX_SHADER : ℕ := 0x8B31

/-- `GL_FRAGMENT_SHADER`. -/
def GL_FRAGMENT_SHADER : ℕ := 0x8B30

/-- Environment of external outcomes for a shader reload: the results of
`slurp_file_into_malloced_cstr` on the two shader paths (`none` models a
read failure), the GL compile status per shader type and source text, the
GL link status (`GL_LINK_STATUS`), the handles `glCreateShader` and
`glCreateProgram` hand out, and the `glGetUniformLocation` results. -/
structure ShaderEnv where
  read_vert : Option (List Char)
  read_frag : Option (List Char)
  compile_ok : ℕ → List Char → Bool
  link_ok : Bool
  fresh_shader : ℕ → ℕ
  fresh_program : ℕ
  uniform_loc : ℕ → String → ℤ

/-- `compile_shader_source` from `src/main.c:82`: creates a shader handle,
compiles, and returns the `GL_COMPILE_STATUS` together with the handle. -/
def compile_shader_source (env : ShaderEnv) (source : List Char)
    (shader_type : ℕ) : Bool × ℕ :=
  (env.compile_ok shader_type source, env.fresh_shader shader_type)

/-- `compile_shader_file` from `src/main.c:103`: slurps the file (failure
reported and `false` returned), then `compile_shader_source`. -/
def compile_shader_file (env : ShaderEnv) (slurped : Option (List Char))
    (shader_type : ℕ) : Bool × ℕ :=
  match slurped with
  | none => (false, 0)
  | some source => compile_shader_source env source shader_type

/-- Result of `link_program`: the created program handle, the
`GL_LINK_STATUS` (only logged), and the C return value. -/
structure LinkResult where
  program : ℕ
  linked : Bool
  ret : Bool
deriving DecidableEq

/-- `link_program` from `src/main.c:119`: creates a program, attaches and
links, logs the diagnostic when `GL_LINK_STATUS` is false, deletes both
shader handles, and then executes `return program;` — `program` is the
non-null out-parameter pointer, so the conversion to `bool` yields `true`
regardless of the link status. -/
def link_program (env : ShaderEnv) (vert_shader frag_shader : ℕ) :
    LinkResult :=
  { program := env.fresh_program, linked := env.link_ok, ret := true }

/-- `load_shader_program` from `src/main.c:235`: compile vertex, compile
fragment, link, short-circuiting on a `false` return; `some program` iff
the C function returns `true`. -/
def load_shader_program (env : ShaderEnv) : Option ℕ :=
  let vert := compile_shader_file env env.read_vert GL_VERTEX_SHADER
  if !vert.1 then none
  else
    let frag := compile_shader_file env env.read_frag GL_FRAGMENT_SHADER
    if !frag.1 then none
    else
      let lr := link_program env vert.2 frag.2
      if !lr.ret then none
      else some lr.program

/-- `renderer_reload_shaders` from `src/main.c:353`: destroy the previous
program, set state to Failed with a pure-red clear color, attempt
`load_shader_program`; on success resolve the three uniform locations, set
state to Loaded and restore the transparent-black clear color. -/
def renderer_reload_shaders (env : ShaderEnv) (r : Renderer) (gl : GLState) :
    Renderer × GLState :=
  let gl1 := { gl with deleted_programs := gl.deleted_programs ++ [r.program] }
  let r1 := { r with program_failed := true }
  let gl2 := { gl1 with clear_color := ⟨1, 0, 0, 1⟩ }
  match load_shader_program env with
  | none => (r1, gl2)
  | some program =>
      let gl3 := { gl2 with used_program := some program }
      let r2 := { r1 with
        program := program,
        uniforms := fun u => env.uniform_loc program (uniform_names u),
        program_failed := false }
      (r2, { gl3 with clear_color := ⟨0, 0, 0, 0⟩ })

/-- The draw gate of the frame loop (`src/main.c:543`): the Frame Driver
uploads uniforms and issues its draw call only when `program_failed` is
false. -/
def frame_draws (r : Renderer) : Bool := !r.program_failed

/-- A shader environment in which both shader files read and compile
successfully but `glLinkProgram` fails (`GL_LINK_STATUS` false). -/
def shaderEnv_linkfail : ShaderEnv :=
  { read_vert := some "vertex source".toList,
    read_frag := some "fragment source".toList,
    compile_ok := fun _ _ => true, link_ok := false,
    fresh_shader := fun t => t, fresh_program := 7,
    uniform_loc := fun _ _ => 0 }

/-- C1: evaluation at the failing input.  When both shaders compile but the
link step fails, `link_program` still returns `true` (its `return program;`
converts the non-null out-pointer to `bool`), so `renderer_reload_shaders`
does not short-circuit: it resolves uniforms, sets state to Loaded,
restores the transparent-black clear color, and the Frame Driver draws on
the next frame — contradicting the claimed short-circuit on link failure. -/
theorem C1_link_failure_still_loads :
    shaderEnv_linkfail.link_ok = false ∧
    (link_program shaderEnv_linkfail 1 2).ret = true ∧
    load_shader_program shaderEnv_linkfail = some 7 ∧
    (renderer_reload_shaders shaderEnv_linkfail renderer0 glState0).1.program_failed
      = false ∧
    (renderer_reload_shaders shaderEnv_linkfail renderer0 glState0).2.clear_color
      = ⟨0, 0, 0, 0⟩ ∧
    frame_draws (renderer_reload_shaders shaderEnv_linkfail renderer0 glState0).1
      = true :=
  ⟨rfl, rfl, rfl, rfl, rfl, rfl⟩

/-- Environment for a texture reload: the result of `stbi_load` on the
texture path (`none` on decode failure; on success width, height and the
RGBA pixel bytes), and the handle `glGenTextures` hands out. -/
structure TexEnv where
  decoded : Option (ℤ × ℤ × List ℕ)
  fresh_texture : ℕ

/-- `renderer_reload_textures` from `src/main.c:321`: on decode failure
log and return with nothing touched; on success delete the previous
texture handle, generate and bind a new one, set filtering/wrapping
parameters, and upload the decoded RGBA pixels via `glTexImage2D`. -/
def renderer_reload_textures (env : TexEnv) (r : Renderer) (gl : GLState) :
    Renderer × GLState :=
  match env.decoded with
  | none => (r, gl)
  | some img =>
      let gl1 := { gl with
        deleted_textures := gl.deleted_textures ++ [r.texture] }
      let r1 := { r with texture := env.fresh_texture }
      (r1, { gl1 with
        bound_texture := some env.fresh_texture,
        uploaded_image := some img })

/-- C3: if decoding fails, `renderer_reload_textures` leaves the renderer
and GL state entirely unchanged (the previous texture keeps rendering);
the previous texture handle is deleted only when `stbi_load` returned
pixel data, and on success it is replaced by the fresh handle. -/
theorem C3_texture_reload_safety (env : TexEnv) (r : Renderer) (gl : GLState) :
    (env.decoded = none → renderer_reload_textures env r gl = (r, gl))
    ∧ ((renderer_reload_textures env r gl).2.deleted_textures ≠
        gl.deleted_textures → env.decoded ≠ none)
    ∧ (∀ img, env.decoded = some img →
        (renderer_reload_textures env r gl).2.deleted_textures =
          gl.deleted_textures ++ [r.texture] ∧
        (renderer_reload_textures env r gl).1 =
          { r with texture := env.fresh_texture } ∧
        (renderer_reload_textures env r gl).2.uploaded_image = some img) := by
  refine ⟨?_, ?_, ?_⟩
  · intro h
    simp [renderer_reload_textures, h]
  · intro hne h
    simp [renderer_reload_textures, h] at hne
  · intro img himg
    refine ⟨?_, ?_, ?_⟩ <;> simp [renderer_reload_textures, himg]

/-- A decode failure environment. -/
def texEnv_fail : TexEnv := { decoded := none, fresh_texture := 9 }

/-- A successful decode of a 2x2 image. -/
def texEnv_ok : TexEnv :=
  { decoded := some (2, 2, [255, 0, 0, 255]), fresh_texture := 9 }

/-- C3 witness: the theorem applied at a failing decode (state unchanged)
and at a successful decode (old handle deleted, new one installed). -/
theorem C3_texture_reload_safety_witness :
    renderer_reload_textures texEnv_fail renderer0 glState0 =
      (renderer0, glState0) ∧
    (renderer_reload_textures texEnv_ok renderer0 glState0).2.deleted_textures =
      glState0.deleted_textures ++ [renderer0.texture] := by
  constructor
  · exact (C3_texture_reload_safety texEnv_fail renderer0 glState0).1 rfl
  · exact ((C3_texture_reload_safety texEnv_ok renderer0 glState0).2.2
      (2, 2, [255, 0, 0, 255]) rfl).1

/-- C `isspace` in the default locale: space, tab, newline, vertical tab,
form feed, carriage return. -/
def c_isspace (c : Char) : Bool :=
  c = ' ' || c = '\t' || c = '\n' || c = '\x0b' || c = '\x0c' || c = '\r'

/-- Modelled from the spec: `sv.h` (vendored string-view library, not under
`src/`) — `sv_trim_left` drops leading `isspace` characters. -/
def sv_trim_left (s : List Char) : List Char := s.dropWhile c_isspace

/-- Modelled from the spec: `sv.h` — `sv_trim_right` drops trailing
`isspace` characters. -/
def sv_trim_right (s : List Char) : List Char :=
  (s.reverse.dropWhile c_isspace).reverse

/-- Modelled from the spec: `sv.h` — `sv_trim` trims both ends. -/
def sv_trim (s : List Char) : List Char := sv_trim_right (sv_trim_left s)

/-- Modelled from the spec: `sv.h` — `sv_chop_by_delim` returns the part
before the first delimiter and leaves the part after it; when the
delimiter does not occur it returns the whole view and leaves it empty. -/
def sv_chop_by_delim (delim : Char) (s : List Char) :
    List Char × List Char :=
  match s.findIdx? (fun c => c = delim) with
  | some i => (s.take i, s.drop (i + 1))
  | none => (s, [])

/-- The three parsed paths (`vert_path`, `frag_path`, `texture_path`
globals from `src/main.c:257`), `none` modelling `NULL`. -/
structure RenderConf where
  vert_path : Option (List Char)
  frag_path : Option (List Char)
  texture_path : Option (List Char)
deriving DecidableEq

/-- One unsupported-key report from `src/main.c:313`: the 0-based row, the
column `key.data - line_start`, and the offending key. -/
structure ConfWarning where
  row : ℕ
  col : ℕ
  key : List Char
deriving DecidableEq

/-- The trimmed key of a raw config line:
`sv_trim(sv_chop_by_delim(&line, '='))` after the line was left-trimmed. -/
def conf_key (raw : List Char) : List Char :=
  sv_trim (sv_chop_by_delim '=' (sv_trim_left raw)).1

/-- The value of a raw config line: `sv_trim_left(line)` after the key was
chopped off at `=`.  The in-place NUL write at `value.data[value.count]`
makes the value's C string run exactly to the end of the line, so the
value is only left-trimmed. -/
def conf_value (raw : List Char) : List Char :=
  sv_trim_left (sv_chop_by_delim '=' (sv_trim_left raw)).2

/-- The body of the parse loop of `reload_render_conf`
(`src/main.c:276`-`src/main.c:317`): skip lines empty after left trim and
`#` comment lines, then assign the matching path or append an
unsupported-key warning with the 0-based row and the column
`key.data - line_start` (the number of leading whitespace characters). -/
def conf_process_line (raw : List Char) (row : ℕ)
    (st : RenderConf × List ConfWarning) : RenderConf × List ConfWarning :=
  if 0 < (sv_trim_left raw).length ∧ (sv_trim_left raw).head? ≠ some '#' then
    if conf_key raw = "vert".toList then
      ({ st.1 with vert_path := some (conf_value raw) }, st.2)
    else if conf_key raw = "frag".toList then
      ({ st.1 with frag_path := some (conf_value raw) }, st.2)
    else if conf_key raw = "texture".toList then
      ({ st.1 with texture_path := some (conf_value raw) }, st.2)
    else
      (st.1, st.2 ++
        [⟨row, raw.length - (sv_trim_left raw).length, conf_key raw⟩])
  else st

/-- The `for (int row = 0; content.count > 0; row++)` chop-by-newline loop
of `reload_render_conf`, with a structural fuel argument; the callers
supply fuel strictly greater than the content length, which the loop can
never exhaust since each chop strictly shrinks the content. -/
def conf_parse_fuel : ℕ → List Char → ℕ → RenderConf × List ConfWarning →
    RenderConf × List ConfWarning
  | 0, _, _, st => st
  | fuel + 1, content, row, st =>
    if content = [] then st
    else
      let p := sv_chop_by_delim '\n' content
      conf_parse_fuel fuel p.2 (row + 1) (conf_process_line p.1 row st)

/-- The sequence of raw lines the loop feeds to `conf_process_line`. -/
def chop_lines : ℕ → List Char → List (List Char)
  | 0, _ => []
  | fuel + 1, content =>
    if content = [] then []
    else
      let p := sv_chop_by_delim '\n' content
      p.1 :: chop_lines fuel p.2

/-- The lines of a whole config text. -/
def conf_lines (content : List Char) : List (List Char) :=
  chop_lines (content.length + 1) content

/-- Whether a raw line reaches the branch that assigns the path for `key`:
nonempty after left trim, not a `#` comment, and its trimmed key equals
`key`. -/
def line_sets (key : List Char) (raw : List Char) : Bool :=
  if 0 < (sv_trim_left raw).length ∧ (sv_trim_left raw).head? ≠ some '#' then
    decide (conf_key raw = key)
  else false

/-- The all-`NULL` path set the scan starts from (`src/main.c:273`). -/
def renderConf0 : RenderConf :=
  { vert_path := none, frag_path := none, texture_path := none }

/-- `reload_render_conf` from `src/main.c:261`.  `slurped` is the result of
`slurp_file_into_malloced_cstr` on the config path; on `NULL` the process
exits (`exit(1)`), modelled as `none`.  The previous paths are discarded:
lines `src/main.c:273`-`src/main.c:275` reset all three globals to `NULL`
before the scan, so the result never depends on `prev`. -/
def reload_render_conf (prev : RenderConf) (slurped : Option (List Char)) :
    Option (RenderConf × List ConfWarning) :=
  match slurped with
  | none => none
  | some content =>
      some (conf_parse_fuel (content.length + 1) content 0 (renderConf0, []))

theorem conf_process_line_vert (raw : List Char) (row : ℕ)
    (st : RenderConf × List ConfWarning)
    (h : line_sets "vert".toList raw = false) :
    (conf_process_line raw row st).1.vert_path = st.1.vert_path := by
  unfold conf_process_line
  unfold line_sets at h
  by_cases hg : 0 < (sv_trim_left raw).length ∧
      (sv_trim_left raw).head? ≠ some '#'
  · rw [if_pos hg] at h ⊢
    have hne : ¬ conf_key raw = "vert".toList := of_decide_eq_false h
    split_ifs <;> simp_all
  · rw [if_neg hg] at h ⊢

theorem conf_process_line_frag (raw : List Char) (row : ℕ)
    (st : RenderConf × List ConfWarning)
    (h : line_sets "frag".toList raw = false) :
    (conf_process_line raw row st).1.frag_path = st.1.frag_path := by
  unfold conf_process_line
  unfold line_sets at h
  by_cases hg : 0 < (sv_trim_left raw).length ∧
      (sv_trim_left raw).head? ≠ some '#'
  · rw [if_pos hg] at h ⊢
    have hne : ¬ conf_key raw = "frag".toList := of_decide_eq_false h
    split_ifs <;> simp_all
  · rw [if_neg hg] at h ⊢

theorem conf_process_line_texture (raw : List Char) (row : ℕ)
    (st : RenderConf × List ConfWarning)
    (h : line_sets "texture".toList raw = false) :
    (conf_process_line raw row st).1.texture_path = st.1.texture_path := by
  unfold conf_process_line
  unfold line_sets at h
  by_cases hg : 0 < (sv_trim_left raw).length ∧
      (sv_trim_left raw).head? ≠ some '#'
  · rw [if_pos hg] at h ⊢
    have hne : ¬ conf_key raw = "texture".toList := of_decide_eq_false h
    split_ifs <;> simp_all
  · rw [if_neg hg] at h ⊢

theorem conf_parse_fuel_vert (fuel : ℕ) :
    ∀ (content : List Char) (row : ℕ) (st : RenderConf × List ConfWarning),
    (∀ l ∈ chop_lines fuel content, line_sets "vert".toList l = false) →
    (conf_parse_fuel fuel content row st).1.vert_path = st.1.vert_path := by
  induction fuel with
  | zero => intro content row st _; rfl
  | succ fuel ih =>
      intro content row st h
      by_cases hc : content = []
      · simp [conf_parse_fuel, hc]
      · simp only [conf_parse_fuel, if_neg hc]
        have h1 : line_sets "vert".toList (sv_chop_by_delim '\n' content).1
            = false := by
          apply h
          simp [chop_lines, if_neg hc]
        have h2 : ∀ l ∈ chop_lines fuel (sv_chop_by_delim '\n' content).2,
            line_sets "vert".toList l = false := by
          intro l hl
          apply h
          simp only [chop_lines, if_neg hc]
          exact List.mem_cons_of_mem _ hl
        rw [ih _ _ _ h2, conf_process_line_vert _ _ _ h1]

theorem conf_parse_fuel_frag (fuel : ℕ) :
    ∀ (content : List Char) (row : ℕ) (st : RenderConf × List ConfWarning),
    (∀ l ∈ chop_lines fuel content, line_sets "frag".toList l = false) →
    (conf_parse_fuel fuel content row st).1.frag_path = st.1.frag_path := by
  induction fuel with
  | zero => intro content row st _; rfl
  | succ fuel ih =>
      intro content row st h
      by_cases hc : content = []
      · simp [conf_parse_fuel, hc]
      · simp only [conf_parse_fuel, if_neg hc]
        have h1 : line_sets "frag".toList (sv_chop_by_delim '\n' content).1
            = false := by
          apply h
          simp [chop_lines, if_neg hc]
        have h2 : ∀ l ∈ chop_lines fuel (sv_chop_by_delim '\n' content).2,
            line_sets "frag".toList l = false := by
          intro l hl
          apply h
          simp only [chop_lines, if_neg hc]
          exact List.mem_cons_of_mem _ hl
        rw [ih _ _ _ h2, conf_process_line_frag _ _ _ h1]

theorem conf_parse_fuel_texture (fuel : ℕ) :
    ∀ (content : List Char) (row : ℕ) (st : RenderConf × List ConfWarning),
    (∀ l ∈ chop_lines fuel content, line_sets "texture".toList l = false) →
    (conf_parse_fuel fuel content row st).1.texture_path = st.1.texture_path := by
  induction fuel with
  | zero => intro content row st _; rfl
  | succ fuel ih =>
      intro content row st h
      by_cases hc : content = []
      · simp [conf_parse_fuel, hc]
      · simp only [conf_parse_fuel, if_neg hc]
        have h1 : line_sets "texture".toList (sv_chop_by_delim '\n' content).1
            = false := by
          apply h
          simp [chop_lines, if_neg hc]
        have h2 : ∀ l ∈ chop_lines fuel (sv_chop_by_delim '\n' content).2,
            line_sets "texture".toList l = false := by
          intro l hl
          apply h
          simp only [chop_lines, if_neg hc]
          exact List.mem_cons_of_mem _ hl
        rw [ih _ _ _ h2, conf_process_line_texture _ _ _ h1]

/-- C7: hot-reloading the render config either refreshes all three
resource paths from the new file scan alone or fails the whole process:
the result never depends on the previously parsed paths (they are
discarded and replaced atomically), a config file that cannot be read
terminates the process (`exit(1)`, modelled `none`), and a successful
read always produces the paths of the fresh scan started from the empty
path set. -/
theorem C7_conf_reload_atomic (prev prev2 : RenderConf)
    (slurped : Option (List Char)) :
    reload_render_conf prev slurped = reload_render_conf prev2 slurped
    ∧ reload_render_conf prev none = none
    ∧ (∀ content, reload_render_conf prev (some content) =
        some (conf_parse_fuel (content.length + 1) content 0 (renderConf0, []))) :=
  ⟨rfl, rfl, fun _ => rfl⟩

/-- The config text of the claim. -/
def conf_text : List Char :=
  "vert = shaders/a.vert\nfrag = shaders/a.frag\ntexture = img/a.png\n".toList

/-- The same text with an unrecognized-key line appended. -/
def conf_text_foo : List Char :=
  "vert = shaders/a.vert\nfrag = shaders/a.frag\ntexture = img/a.png\nfoo = bar\n".toList

/-- The same text with a `#` comment line inserted. -/
def conf_text_comment : List Char :=
  "vert = shaders/a.vert\n# note\nfrag = shaders/a.frag\ntexture = img/a.png\n".toList

/-- The three paths the claim expects. -/
def conf_expected : RenderConf :=
  { vert_path := some "shaders/a.vert".toList,
    frag_path := some "shaders/a.frag".toList,
    texture_path := some "img/a.png".toList }

/-- C8: parsing the claim's config text yields exactly the three trimmed
paths and no warning; appending `foo = bar` adds one unsupported-key
warning (0-based row 3, column 0, key `foo`) and does not alter the three
recognized paths; a `#`-prefixed line is ignored as a comment. -/
theorem C8_conf_parse :
    (∀ prev, reload_render_conf prev (some conf_text) =
      some (conf_expected, []))
    ∧ (∀ prev, reload_render_conf prev (some conf_text_foo) =
      some (conf_expected, [⟨3, 0, "foo".toList⟩]))
    ∧ (∀ prev, reload_render_conf prev (some conf_text_comment) =
      some (conf_expected, [])) := by
  refine ⟨fun prev => ?_, fun prev => ?_, fun prev => ?_⟩
  · have h : reload_render_conf renderConf0 (some conf_text) =
        some (conf_expected, []) := by decide
    exact h
  · have h : reload_render_conf renderConf0 (some conf_text_foo) =
        some (conf_expected, [⟨3, 0, "foo".toList⟩]) := by decide
    exact h
  · have h : reload_render_conf renderConf0 (some conf_text_comment) =
        some (conf_expected, []) := by decide
    exact h

/-- C10: on every successful config read the three paths are reset and
then set only from matching key lines of the new file: the result is
independent of the previous paths, and whenever the new content has no
line whose trimmed key is `vert` (resp. `frag`, `texture`), the
corresponding path in the result is `none` rather than the previous
value. -/
theorem C10_conf_reset (prev prev2 : RenderConf) (content : List Char) :
    reload_render_conf prev (some content) =
      reload_render_conf prev2 (some content)
    ∧ (∀ conf warns,
        reload_render_conf prev (some content) = some (conf, warns) →
        ((∀ l ∈ conf_lines content, line_sets "vert".toList l = false) →
          conf.vert_path = none)
        ∧ ((∀ l ∈ conf_lines content, line_sets "frag".toList l = false) →
          conf.frag_path = none)
        ∧ ((∀ l ∈ conf_lines content, line_sets "texture".toList l = false) →
          conf.texture_path = none)) := by
  refine ⟨rfl, ?_⟩
  intro conf warns hout
  simp only [reload_render_conf, Option.some.injEq] at hout
  refine ⟨?_, ?_, ?_⟩
  · intro hnone
    have hv := conf_parse_fuel_vert (content.length + 1) content 0
      (renderConf0, []) hnone
    rw [hout] at hv
    exact hv
  · intro hnone
    have hv := conf_parse_fuel_frag (content.length + 1) content 0
      (renderConf0, []) hnone
    rw [hout] at hv
    exact hv
  · intro hnone
    have hv := conf_parse_fuel_texture (content.length + 1) content 0
      (renderConf0, []) hnone
    rw [hout] at hv
    exact hv

/-- A config text that lacks the `texture` key. -/
def conf_text_no_texture : List Char := "vert = a.vert\nfrag = a.frag\n".toList

/-- C10 witness: starting from fully populated previous paths, a file
without a `texture` line parses to a `none` texture path. -/
theorem C10_conf_reset_witness :
    reload_render_conf conf_expected (some conf_text_no_texture) =
      reload_render_conf renderConf0 (some conf_text_no_texture)
    ∧ ∃ conf warns,
        reload_render_conf conf_expected (some conf_text_no_texture) =
          some (conf, warns) ∧ conf.texture_path = none := by
  obtain ⟨h1, h2⟩ := C10_conf_reset conf_expected renderConf0 conf_text_no_texture
  have hout : reload_render_conf conf_expected (some conf_text_no_texture) =
      some (⟨some "a.vert".toList, some "a.frag".toList, none⟩, []) := by decide
  exact ⟨h1, _, _, hout, (h2 _ _ hout).2.2 (by decide)⟩

/-- `MANUAL_TIME_STEP` from `src/main.c:21`. -/
def MANUAL_TIME_STEP : ℚ := 1 / 10

/-- The GLFW keys `key_callback` distinguishes. -/
inductive Key where
  | F5
  | F6
  | SPACE
  | Q
  | LEFT
  | RIGHT
  | OTHER
deriving DecidableEq

/-- The GLFW key actions. -/
inductive KeyAction where
  | PRESS
  | RELEASE
  | REPEAT
deriving DecidableEq

/-- The mutable process-wide state the callbacks and the frame loop touch:
the globals `time` and `pause` from `src/main.c:183`, the parsed config
paths, `global_renderer`, and the GL context. -/
structure World where
  time : ℚ
  pause : Bool
  conf : RenderConf
  renderer : Renderer
  gl : GLState

/-- External outcomes available to an F5 reload: the slurp of
`render.conf` and the texture/shader environments. -/
structure ReloadEnv where
  conf_slurp : Option (List Char)
  tex : TexEnv
  shader : ShaderEnv

/-- `key_callback` from `src/main.c:378`.  Only `GLFW_PRESS` acts.  F5
reloads config, textures, then shaders; F6 writes a screenshot PNG (no
model state changes); SPACE toggles pause; Q exits (`none`, like the
fatal config-read inside F5).  After that chain, if `pause` is set, LEFT
and RIGHT move `time` by `MANUAL_TIME_STEP`. -/
def key_callback (env : ReloadEnv) (key : Key) (action : KeyAction)
    (w : World) : Option World :=
  if action = KeyAction.PRESS then
    let w1opt : Option World :=
      if key = Key.F5 then
        match reload_render_conf w.conf env.conf_slurp with
        | none => none
        | some out =>
            let pt := renderer_reload_textures env.tex w.renderer w.gl
            let ps := renderer_reload_shaders env.shader pt.1 pt.2
            some { w with conf := out.1, renderer := ps.1, gl := ps.2 }
      else if key = Key.F6 then
        some w
      else if key = Key.SPACE then
        some { w with pause := !w.pause }
      else if key = Key.Q then
        none
      else
        some w
    match w1opt with
    | none => none
    | some w1 =>
        if w1.pause then
          if key = Key.LEFT then
            some { w1 with time := w1.time - MANUAL_TIME_STEP }
          else if key = Key.RIGHT then
            some { w1 with time := w1.time + MANUAL_TIME_STEP }
          else some w1
        else some w1
  else some w

/-- The per-frame time update at the bottom of the render loop
(`src/main.c:557`-`src/main.c:561`): read `cur_time = glfwGetTime()`, add
`cur_time - prev_time` to `time` unless paused, and remember `cur_time`
as the new `prev_time`. -/
def frame_time_update (pause : Bool) (time prev_time cur_time : ℚ) :
    ℚ × ℚ :=
  (if pause then time else time + (cur_time - prev_time), cur_time)

/-- The render loop's time accumulation over a sequence of frames, each
given by the pause flag observed that frame and the wall-clock reading at
the end of the frame. -/
def main_loop_time : ℚ → ℚ → List (Bool × ℚ) → ℚ
  | time, _, [] => time
  | time, prev_time, f :: frames =>
      main_loop_time (frame_time_update f.1 time prev_time f.2).1
        (frame_time_update f.1 time prev_time f.2).2 frames

/-- The simulation time after running the loop from startup:
`time = glfwGetTime()` (the startup reading `t0`) and `prev_time = 0.0`
(`src/main.c:538`-`src/main.c:539`). -/
def main_time_after (t0 : ℚ) (frames : List (Bool × ℚ)) : ℚ :=
  main_loop_time t0 0 frames

/-- Helper: frames observed with the pause flag set never change the
simulation time. -/
theorem main_loop_time_paused (frames : List (Bool × ℚ)) :
    ∀ time prev_time : ℚ, (∀ f ∈ frames, f.1 = true) →
    main_loop_time time prev_time frames = time := by
  induction frames with
  | nil => intro time prev_time _; rfl
  | cons f frames ih =>
      intro time prev_time h
      have hf : f.1 = true := h f (List.mem_cons_self f frames)
      simp only [main_loop_time, frame_time_update, hf, if_true]
      exact ih _ _ (fun g hg => h g (List.mem_cons_of_mem f hg))

/-- C6: while the pause flag is set the simulation time does not change
across frames regardless of the wall clock; while paused, each step
command moves it by exactly `MANUAL_TIME_STEP = 0.1` (LEFT backward,
RIGHT forward); step commands have no effect when not paused. -/
theorem C6_pause_freeze_and_step (w : World) (env : ReloadEnv)
    (time prev_time : ℚ) (frames : List (Bool × ℚ)) :
    ((∀ f ∈ frames, f.1 = true) →
      main_loop_time time prev_time frames = time)
    ∧ (w.pause = true →
        key_callback env Key.LEFT KeyAction.PRESS w =
          some { w with time := w.time - MANUAL_TIME_STEP }
        ∧ key_callback env Key.RIGHT KeyAction.PRESS w =
          some { w with time := w.time + MANUAL_TIME_STEP })
    ∧ (w.pause = false →
        key_callback env Key.LEFT KeyAction.PRESS w = some w
        ∧ key_callback env Key.RIGHT KeyAction.PRESS w = some w) := by
  refine ⟨main_loop_time_paused frames time prev_time, ?_, ?_⟩
  · intro hp
    constructor <;> simp [key_callback, hp]
  · intro hp
    constructor <;> simp [key_callback, hp]

/-- A world with pause not set. -/
def world0 : World :=
  { time := 3, pause := false, conf := renderConf0, renderer := renderer0,
    gl := glState0 }

/-- The same world with pause set. -/
def world_paused : World := { world0 with pause := true }

/-- An arbitrary reload environment (unused by the step keys). -/
def reloadEnv0 : ReloadEnv :=
  { conf_slurp := none, tex := texEnv_fail, shader := shaderEnv_linkfail }

/-- C6 witness: two paused frames leave time at 5; LEFT while paused
moves time down by `1/10`; RIGHT while unpaused is a no-op. -/
theorem C6_pause_freeze_and_step_witness :
    main_loop_time 5 0 [(true, 9), (true, 12)] = 5
    ∧ key_callback reloadEnv0 Key.LEFT KeyAction.PRESS world_paused =
        some { world_paused with time := world_paused.time - MANUAL_TIME_STEP }
    ∧ key_callback reloadEnv0 Key.RIGHT KeyAction.PRESS world0 = some world0 := by
  obtain ⟨h1, h2, _⟩ := C6_pause_freeze_and_step world_paused reloadEnv0 5 0
    [(true, 9), (true, 12)]
  obtain ⟨_, _, h3⟩ := C6_pause_freeze_and_step world0 reloadEnv0 0 0 []
  exact ⟨h1 (by decide), (h2 rfl).1, (h3 rfl).2⟩

/-- C9 counterexample: with the clock initialized at wall-clock reading 5
and the first frame ending at reading 6, the loop advances the time by
the full reading 6 (because `prev_time` starts at `0.0`), ending at 11;
the claim's first-frame advance of elapsed-since-initialization would end
at `5 + (6 - 5) = 6`. -/
theorem C9_first_frame_counterexample :
    main_time_after 5 [(false, 6)] = 11 ∧ main_time_after 5 [(false, 6)] ≠ 5 + (6 - 5) := by
  constructor
  · norm_num [main_time_after, main_loop_time, frame_time_update]
  · norm_num [main_time_after, main_loop_time, frame_time_update]

/-- C9 (amended): the simulation clock starts at the windowing library's
wall-clock reading `t0` at startup, and every unpaused frame after the
first advances it by exactly the elapsed wall-clock time since the
previous frame; the first frame, however, advances it by the full
wall-clock reading at the end of that frame (`cur - 0.0`), because
`prev_time` is initialized to `0.0` rather than to the startup reading,
so the first advance exceeds the time elapsed since the clock was
initialized by `t0` itself. -/
theorem C9_time_accumulation_amended (t0 time prev_time cur : ℚ)
    (frames : List (Bool × ℚ)) :
    main_time_after t0 [] = t0
    ∧ main_time_after t0 ((false, cur) :: frames) =
        main_loop_time (t0 + (cur - 0)) cur frames
    ∧ main_loop_time time prev_time ((false, cur) :: frames) =
        main_loop_time (time + (cur - prev_time)) cur frames
    ∧ main_loop_time time prev_time ((true, cur) :: frames) =
        main_loop_time time cur frames := by
  refine ⟨rfl, ?_, ?_, ?_⟩ <;>
    simp [main_time_after, main_loop_time, frame_time_update]

end GLTemplate
